import Mathlib

/-!
# Verification of the military-time converter core

Shallow embedding of the core functions of `src/main.py`:
`parse_time`, `military_to_standard_time`, `standard_to_military_time`,
`add_time`, `subtract_time`, `time_difference`, `calculate_duration`.

Modelling conventions:
* Python exceptions become `Except PyError`.  `TimeFormatError` is
  `PyError.timeFormatError msg`; a `ValueError` coming out of `int()` is
  `PyError.valueError`; an `OverflowError` from `datetime`/`timedelta`
  arithmetic is `PyError.overflowError`.  The `validate_time` decorator in
  the source only logs and routes exceptions to a GUI dialog (returning
  `None`); it is presentation plumbing around these raises, so the core is
  modelled undecorated, with the raised exception as the observable result.
* Python's unbounded `int` is `Int`.  `int(str)` is modelled by
  `pythonInt` on ASCII text: optional surrounding ASCII whitespace, an
  optional sign, and decimal digits with single underscore separators,
  exactly CPython's accepted syntax restricted to the ASCII range.
* `str.split` on a colon is modelled by `splitCols` on the character list.
* The regular expression of `standard_to_military_time`,
  matched with `re.match` and `re.IGNORECASE`, is modelled by `matchStd`,
  a backtracking matcher following the regex engine's preference order
  (alternatives left to right, greedy optional pieces, `$` accepting a
  lone trailing newline).
* `datetime`/`timedelta` arithmetic over the fixed anchor date 2000-01-01
  is modelled by integer second counts from the ordinal epoch 0001-01-01,
  including the `OverflowError` bounds of both types.
-/

namespace MilTime

/-! ## Characters and digits -/

def digitChar (n : Nat) : Char := Char.ofNat (48 + n)

def charDigit (c : Char) : Nat := c.toNat - 48

/-- ASCII whitespace stripped by Python's `int()`. -/
def isPySpace (c : Char) : Bool :=
  c = ' ' || c = '\t' || c = '\n' || c = '\r' || c = '\x0b' || c = '\x0c'

/-! ## Python `int(str)` -/

/-- Digit run with CPython's underscore rule: an underscore must sit between
two digits, never doubled, leading or trailing. -/
def digitsValAux : Nat → List Char → Option Nat
  | acc, [] => some acc
  | acc, '_' :: c :: rest =>
    if c.isDigit then digitsValAux (10 * acc + charDigit c) rest else none
  | acc, c :: rest =>
    if c.isDigit then digitsValAux (10 * acc + charDigit c) rest else none

def digitsVal : List Char → Option Nat
  | [] => none
  | c :: rest => if c.isDigit then digitsValAux (charDigit c) rest else none

/-- CPython `int(str)` on ASCII text: optional surrounding whitespace,
optional `+`/`-` sign, then a digit run. -/
def pythonInt (s : List Char) : Option Int :=
  match ((s.dropWhile isPySpace).reverse.dropWhile isPySpace).reverse with
  | '+' :: ds => (digitsVal ds).map (fun n => (n : Int))
  | '-' :: ds => (digitsVal ds).map (fun n => -(n : Int))
  | ds => (digitsVal ds).map (fun n => (n : Int))

/-! ## `str.split(':')` -/

def splitCols : List Char → List (List Char)
  | [] => [[]]
  | c :: rest =>
    if c = ':' then [] :: splitCols rest
    else
      match splitCols rest with
      | f :: r => (c :: f) :: r
      | [] => [[c]]

/-! ## The `Time` dataclass and the exception taxonomy -/

structure Time where
  hours : Int
  minutes : Int
  seconds : Int
  timezone : String
deriving DecidableEq, Repr

inductive PyError where
  | timeFormatError (msg : String)
  | valueError
  | overflowError
deriving DecidableEq, Repr

/-! ## `parse_time` -/

/-- `parse_time` from `src/main.py` lines 49-63: split on `:` into two or
three fields, convert each with `int`, then range-check
`0 <= hours < 24`, `0 <= minutes < 60`, `0 <= seconds < 60`
(a missing seconds field is 0). -/
def parse_time (time_str : String) : Except PyError Time :=
  match splitCols time_str.data with
  | [p1, p2] =>
    match pythonInt p1, pythonInt p2 with
    | some hours, some minutes =>
      if 0 ≤ hours ∧ hours < 24 ∧ 0 ≤ minutes ∧ minutes < 60 ∧
          0 ≤ (0 : Int) ∧ (0 : Int) < 60 then
        .ok ⟨hours, minutes, 0, "UTC"⟩
      else .error (.timeFormatError "Time values out of valid range.")
    | _, _ => .error .valueError
  | [p1, p2, p3] =>
    match pythonInt p1, pythonInt p2, pythonInt p3 with
    | some hours, some minutes, some seconds =>
      if 0 ≤ hours ∧ hours < 24 ∧ 0 ≤ minutes ∧ minutes < 60 ∧
          0 ≤ seconds ∧ seconds < 60 then
        .ok ⟨hours, minutes, seconds, "UTC"⟩
      else .error (.timeFormatError "Time values out of valid range.")
    | _, _, _ => .error .valueError
  | _ => .error (.timeFormatError "Invalid time format. Please use HH:MM or HH:MM:SS.")

/-! ## Python string formatting of integers -/

def natDigitsAux : Nat → Nat → List Char
  | 0, _ => []
  | _fuel + 1, n =>
    if n < 10 then [digitChar n]
    else natDigitsAux _fuel (n / 10) ++ [digitChar (n % 10)]

/-- Decimal digits of a natural number, most significant first. -/
def natDigits (n : Nat) : List Char := natDigitsAux (n + 1) n

/-- Python `f-string` `{n:02d}` padding for a natural value. -/
def pad2 (n : Nat) : List Char :=
  let ds := natDigits n
  if ds.length < 2 then List.replicate (2 - ds.length) '0' ++ ds else ds

/-- Python `f-string` `{i:02d}` on an arbitrary integer. -/
def fmt02 (i : Int) : List Char :=
  if i < 0 then
    let ds := '-' :: natDigits i.natAbs
    if ds.length < 2 then List.replicate (2 - ds.length) '0' ++ ds else ds
  else pad2 i.toNat

/-- Python `f-string` `{i}` with no padding. -/
def fmtInt (i : Int) : List Char :=
  if i < 0 then '-' :: natDigits i.natAbs else natDigits i.toNat

/-! ## `military_to_standard_time` -/

/-- `military_to_standard_time` from `src/main.py` lines 66-82 (the Python
default for `use_24h` is `false`; it is passed explicitly here). -/
def military_to_standard_time (military_time : String) (use_24h : Bool) :
    Except PyError String :=
  match parse_time military_time with
  | .error e => .error e
  | .ok t =>
    if use_24h then
      .ok ⟨fmt02 t.hours ++ ':' :: (fmt02 t.minutes ++ ':' :: fmt02 t.seconds)⟩
    else
      let period : String := if t.hours < 12 then "AM" else "PM"
      let standard_hours : Int :=
        if t.hours = 0 then 12
        else if t.hours > 12 then t.hours - 12
        else t.hours
      .ok ⟨fmtInt standard_hours ++ ':' ::
            (fmt02 t.minutes ++ ':' :: (fmt02 t.seconds ++ ' ' :: period.data))⟩

/-! ## The standard-time regular expression

The source compiles `^(1[0-2]|0?[1-9]):([0-5][0-9]):?([0-5]?[0-9])? ?(AM|PM)$`
with `re.IGNORECASE` and applies `re.match`.  The matcher below follows the
backtracking engine: alternatives are tried left to right, optional pieces
greedily, and a failing continuation falls back to the next alternative.
`$` accepts the end of the string or a single trailing newline. -/

/-- Python `$` (without `re.MULTILINE`): end of input or a lone `\n`. -/
def matchEnd (cs : List Char) : Bool :=
  match cs with
  | [] => true
  | c :: rest => if c = '\n' ∧ rest = [] then true else false

/-- `(AM|PM)$` under `re.IGNORECASE`; `true` means the PM branch matched. -/
def matchMeridiemEnd (cs : List Char) : Option Bool :=
  match cs with
  | c1 :: c2 :: rest =>
    if (c1 = 'A' ∨ c1 = 'a') ∧ (c2 = 'M' ∨ c2 = 'm') ∧ matchEnd rest = true then
      some false
    else if (c1 = 'P' ∨ c1 = 'p') ∧ (c2 = 'M' ∨ c2 = 'm') ∧ matchEnd rest = true then
      some true
    else none
  | _ => none

/-- ` ?(AM|PM)$`: the optional space is greedy, with fallback. -/
def matchSpaceMeridiem (cs : List Char) : Option Bool :=
  match cs with
  | c :: rest =>
    if c = ' ' then
      match matchMeridiemEnd rest with
      | some b => some b
      | none => matchMeridiemEnd cs
    else matchMeridiemEnd cs
  | [] => matchMeridiemEnd cs

/-- `([0-5]?[0-9])? ?(AM|PM)$`: the seconds group prefers two digits, then
one digit, then nothing. -/
def matchSecTail (cs : List Char) : Option (Option Nat × Bool) :=
  match (match cs with
         | d1 :: d2 :: rest =>
           if ('0' ≤ d1 ∧ d1 ≤ '5') ∧ ('0' ≤ d2 ∧ d2 ≤ '9') then
             (matchSpaceMeridiem rest).map
               (fun pm => (some (10 * charDigit d1 + charDigit d2), pm))
           else none
         | _ => none) with
  | some r => some r
  | none =>
    match (match cs with
           | d1 :: rest =>
             if '0' ≤ d1 ∧ d1 ≤ '9' then
               (matchSpaceMeridiem rest).map (fun pm => (some (charDigit d1), pm))
             else none
           | _ => none) with
    | some r => some r
    | none => (matchSpaceMeridiem cs).map (fun pm => ((none : Option Nat), pm))

/-- `:?` before the seconds group, greedy with fallback. -/
def matchColonSecTail (cs : List Char) : Option (Option Nat × Bool) :=
  match cs with
  | c :: rest =>
    if c = ':' then
      match matchSecTail rest with
      | some r => some r
      | none => matchSecTail cs
    else matchSecTail cs
  | [] => matchSecTail cs

/-- `([0-5][0-9])` and the rest of the pattern. -/
def matchMinutes (cs : List Char) : Option (Nat × Option Nat × Bool) :=
  match cs with
  | d1 :: d2 :: rest =>
    if ('0' ≤ d1 ∧ d1 ≤ '5') ∧ ('0' ≤ d2 ∧ d2 ≤ '9') then
      (matchColonSecTail rest).map
        (fun r => (10 * charDigit d1 + charDigit d2, r))
    else none
  | _ => none

/-- The whole anchored pattern.  The hour alternation tries `1[0-2]`, then
`0[1-9]` (the greedy `0?`), then a bare `[1-9]`, each followed by `:`. -/
def matchStd (cs : List Char) : Option (Nat × Nat × Option Nat × Bool) :=
  match (match cs with
         | c0 :: c1 :: c2 :: rest =>
           if c0 = '1' ∧ ('0' ≤ c1 ∧ c1 ≤ '2') ∧ c2 = ':' then
             (matchMinutes rest).map (fun r => (10 + charDigit c1, r))
           else none
         | _ => none) with
  | some r => some r
  | none =>
    match (match cs with
           | c0 :: c1 :: c2 :: rest =>
             if c0 = '0' ∧ ('1' ≤ c1 ∧ c1 ≤ '9') ∧ c2 = ':' then
               (matchMinutes rest).map (fun r => (charDigit c1, r))
             else none
           | _ => none) with
    | some r => some r
    | none =>
      match cs with
      | c0 :: c1 :: rest =>
        if ('1' ≤ c0 ∧ c0 ≤ '9') ∧ c1 = ':' then
          (matchMinutes rest).map (fun r => (charDigit c0, r))
        else none
      | _ => none

/-! ## `standard_to_military_time` -/

/-- `standard_to_military_time` from `src/main.py` lines 85-103. -/
def standard_to_military_time (standard_time : String) : Except PyError String :=
  match matchStd standard_time.data with
  | none => .error (.timeFormatError "Invalid standard time format. Use HH:MM:SS AM/PM.")
  | some (h, m, sOpt, isPM) =>
    let seconds : Nat := sOpt.getD 0
    let hours : Nat :=
      if isPM = true ∧ h ≠ 12 then h + 12
      else if isPM = false ∧ h = 12 then 0
      else h
    .ok ⟨pad2 hours ++ ':' :: (pad2 m ++ ':' :: pad2 seconds)⟩

/-! ## `datetime`-backed arithmetic

All four arithmetic operations anchor the parsed time to 2000-01-01.
`date(2000, 1, 1).toordinal() = 730120` and the last representable instant is
`9999-12-31 23:59:59` with ordinal `3652059`, so in seconds counted from
0001-01-01 00:00:00 the anchor midnight is `730119 * 86400` and a
`datetime` result is valid exactly on `[0, 3652059 * 86400)`.
`timedelta` itself overflows when its day count (the floor of the total
seconds over 86400) leaves `[-999999999, 999999999]`. -/

def toSeconds (t : Time) : Int := 3600 * t.hours + 60 * t.minutes + t.seconds

def anchorSeconds : Int := 730119 * 86400

def maxDatetimeSeconds : Int := 3652059 * 86400

/-- `timedelta(hours=h, minutes=m, seconds=s)` normalisation bound: the
normalised day count is Python floor division of the total seconds. -/
def timedeltaOk (total : Int) : Bool :=
  -999999999 ≤ Int.fdiv total 86400 ∧ Int.fdiv total 86400 ≤ 999999999

/-- Render a day-second count as the zero-padded `HH:MM:SS` of the source's
repeated `divmod`/f-string epilogue. -/
def renderHMS (d : Nat) : String :=
  ⟨pad2 (d / 3600) ++ ':' :: (pad2 (d % 3600 / 60) ++ ':' :: pad2 (d % 60))⟩

/-- `add_time` from `src/main.py` lines 106-111 (Python defaults all three
offsets to 0; they are passed explicitly here). -/
def add_time (time_str : String) (hours minutes seconds : Int) :
    Except PyError String :=
  match parse_time time_str with
  | .error e => .error e
  | .ok t =>
    let total := 3600 * hours + 60 * minutes + seconds
    if timedeltaOk total = false then .error .overflowError
    else
      let r := anchorSeconds + toSeconds t + total
      if r < 0 ∨ maxDatetimeSeconds ≤ r then .error .overflowError
      else renderHMS ((r % 86400).toNat) |> .ok

/-- `subtract_time` from `src/main.py` lines 114-119. -/
def subtract_time (time_str : String) (hours minutes seconds : Int) :
    Except PyError String :=
  match parse_time time_str with
  | .error e => .error e
  | .ok t =>
    let total := 3600 * hours + 60 * minutes + seconds
    if timedeltaOk total = false then .error .overflowError
    else
      let r := anchorSeconds + toSeconds t - total
      if r < 0 ∨ maxDatetimeSeconds ≤ r then .error .overflowError
      else renderHMS ((r % 86400).toNat) |> .ok

/-- `time_difference` from `src/main.py` lines 122-131: the absolute
difference of the two instants is below one day, so `abs(dt2 - dt1).seconds`
is exactly the absolute value of the second counts' difference. -/
def time_difference (time1 time2 : String) : Except PyError String :=
  match parse_time time1 with
  | .error e => .error e
  | .ok t1 =>
    match parse_time time2 with
    | .error e => .error e
    | .ok t2 => .ok (renderHMS (toSeconds t2 - toSeconds t1).natAbs)

/-- `calculate_duration` from `src/main.py` lines 153-166: add a day to the
end instant when it is strictly earlier, subtract, and render
`duration.seconds` (the nonnegative duration is under a day, and
`timedelta.seconds` is its total modulo 86400). -/
def calculate_duration (start_time end_time : String) : Except PyError String :=
  match parse_time start_time with
  | .error e => .error e
  | .ok s =>
    match parse_time end_time with
    | .error e => .error e
    | .ok e =>
      let startSec := toSeconds s
      let endSec := if toSeconds e < startSec then toSeconds e + 86400 else toSeconds e
      .ok (renderHMS (((endSec - startSec) % 86400).toNat))

/-! ## Spec-side formulations

These definitions restate, in the specification's own words, the mappings
that the claims attribute to the converters.  They are compared with the
embedded source functions in the claim theorems. -/

/-- Spec wording: meridiem is `AM` if hours < 12 and `PM` otherwise. -/
def specMeridiem (h : Int) : String := if h < 12 then "AM" else "PM"

/-- Spec wording for the 12-hour rendering: hour 0 maps to 12, hour 12 maps
to 12, hours above 12 drop 12, other hours are unchanged. -/
def specStandardHour (h : Int) : Int :=
  if h = 0 then 12 else if h = 12 then 12 else if h > 12 then h - 12 else h

/-- Spec wording for the 24-hour rendering: add 12 when PM and the hour is
not 12, zero when AM and the hour is 12, otherwise unchanged. -/
def specMilitaryHour (h : Nat) (pm : Bool) : Nat :=
  if pm = true ∧ h ≠ 12 then h + 12 else if pm = false ∧ h = 12 then 0 else h

/-- Spec wording of `timeDifference`: the absolute value of the difference
of the two second counts. -/
def specAbsDiff (t1 t2 : Time) : Nat := (toSeconds t2 - toSeconds t1).natAbs

/-- Spec wording of `calculateDuration`: end minus start, first pushing the
end to the following day when it is strictly earlier than the start. -/
def specDuration (ts te : Time) : Int :=
  toSeconds te - toSeconds ts +
    (if toSeconds te < toSeconds ts then 86400 else 0)

/-! ## Claim C5: the accepted standard-time language

`standardGrammarClaimed` writes out the grammar exactly as the claim states
it: hour 1-12 with an optional leading zero, `:`, a two-digit minute 00-59,
optionally `:` and a two-digit second 00-59 as one unit, an optional single
space, then `AM`/`PM` case-insensitively, and nothing else before or after.
`standardGrammarSpec` is the amended grammar the source regex accepts: the
seconds colon and the seconds digits are independently optional, the seconds
may be one or two digits (two-digit only with a leading 0-5), and a single
trailing newline is allowed.  Both are written as deterministic scanners;
determinism is harmless here because no grammar component can begin with a
character that the following components accept. -/

def claimedMeridiem (cs : List Char) : Bool :=
  match cs with
  | c1 :: c2 :: rest =>
    if ((c1 = 'A' ∨ c1 = 'a') ∨ (c1 = 'P' ∨ c1 = 'p')) ∧ (c2 = 'M' ∨ c2 = 'm') ∧
        rest = [] then true
    else false
  | _ => false

def claimedSpaceMeridiem (cs : List Char) : Bool :=
  match cs with
  | c :: rest => if c = ' ' then claimedMeridiem rest else claimedMeridiem cs
  | [] => claimedMeridiem []

def claimedSecTail (cs : List Char) : Bool :=
  match cs with
  | c :: d1 :: d2 :: rest =>
    if c = ':' ∧ ('0' ≤ d1 ∧ d1 ≤ '5') ∧ ('0' ≤ d2 ∧ d2 ≤ '9') then
      claimedSpaceMeridiem rest
    else claimedSpaceMeridiem cs
  | _ => claimedSpaceMeridiem cs

def claimedMinutes (cs : List Char) : Bool :=
  match cs with
  | d1 :: d2 :: rest =>
    if ('0' ≤ d1 ∧ d1 ≤ '5') ∧ ('0' ≤ d2 ∧ d2 ≤ '9') then claimedSecTail rest
    else false
  | _ => false

def standardGrammarClaimed (cs : List Char) : Bool :=
  match cs with
  | c0 :: c1 :: c2 :: rest =>
    if c0 = '1' ∧ ('0' ≤ c1 ∧ c1 ≤ '2') ∧ c2 = ':' then claimedMinutes rest
    else if c0 = '0' ∧ ('1' ≤ c1 ∧ c1 ≤ '9') ∧ c2 = ':' then claimedMinutes rest
    else if ('1' ≤ c0 ∧ c0 ≤ '9') ∧ c1 = ':' then claimedMinutes (c2 :: rest)
    else false
  | _ => false

def specMeridiemChk (cs : List Char) : Bool :=
  match cs with
  | c1 :: c2 :: rest =>
    if ((c1 = 'A' ∨ c1 = 'a') ∨ (c1 = 'P' ∨ c1 = 'p')) ∧ (c2 = 'M' ∨ c2 = 'm') then
      matchEnd rest
    else false
  | _ => false

def specSpaceMeridiem (cs : List Char) : Bool :=
  match cs with
  | c :: rest => if c = ' ' then specMeridiemChk rest else specMeridiemChk cs
  | [] => specMeridiemChk []

def specSeconds (cs : List Char) : Bool :=
  match cs with
  | d1 :: d2 :: rest =>
    if ('0' ≤ d1 ∧ d1 ≤ '5') ∧ ('0' ≤ d2 ∧ d2 ≤ '9') then specSpaceMeridiem rest
    else if '0' ≤ d1 ∧ d1 ≤ '9' then specSpaceMeridiem (d2 :: rest)
    else specSpaceMeridiem (d1 :: d2 :: rest)
  | [d1] =>
    if '0' ≤ d1 ∧ d1 ≤ '9' then specSpaceMeridiem []
    else specSpaceMeridiem [d1]
  | [] => specSpaceMeridiem []

def specColonSeconds (cs : List Char) : Bool :=
  match cs with
  | c :: rest => if c = ':' then specSeconds rest else specSeconds (c :: rest)
  | [] => specSeconds []

def specMinutes (cs : List Char) : Bool :=
  match cs with
  | d1 :: d2 :: rest =>
    if ('0' ≤ d1 ∧ d1 ≤ '5') ∧ ('0' ≤ d2 ∧ d2 ≤ '9') then specColonSeconds rest
    else false
  | _ => false

def standardGrammarSpec (cs : List Char) : Bool :=
  match cs with
  | c0 :: c1 :: c2 :: rest =>
    if c0 = '1' ∧ ('0' ≤ c1 ∧ c1 ≤ '2') ∧ c2 = ':' then specMinutes rest
    else if c0 = '0' ∧ ('1' ≤ c1 ∧ c1 ≤ '9') ∧ c2 = ':' then specMinutes rest
    else if ('1' ≤ c0 ∧ c0 ≤ '9') ∧ c1 = ':' then specMinutes (c2 :: rest)
    else false
  | _ => false

/-! ## Helper lemmas -/

theorem splitCols_ne_nil (cs : List Char) : splitCols cs ≠ [] := by
  cases cs with
  | nil => simp [splitCols]
  | cons c rest =>
    simp only [splitCols]
    split
    · simp
    · split <;> simp

theorem splitCols_no_colon (cs : List Char) (h : ∀ c ∈ cs, c ≠ ':') :
    splitCols cs = [cs] := by
  induction cs with
  | nil => rfl
  | cons c rest ih =>
    have hc : c ≠ ':' := h c (by simp)
    have hr := ih (fun x hx => h x (by simp [hx]))
    simp only [splitCols, if_neg hc, hr]

theorem splitCols_append (a rest : List Char) (h : ∀ c ∈ a, c ≠ ':') :
    splitCols (a ++ ':' :: rest) = a :: splitCols rest := by
  induction a with
  | nil => simp [splitCols]
  | cons c a ih =>
    have hc : c ≠ ':' := h c (by simp)
    have hr := ih (fun x hx => h x (by simp [hx]))
    simp only [List.cons_append, splitCols, if_neg hc, List.append_eq]
    rw [hr]

/-- Every `Time` that `parse_time` returns was built after the source's
range check, so its fields are in range and its timezone is the default. -/
theorem parse_time_ranges (s : String) (t : Time) (h : parse_time s = .ok t) :
    0 ≤ t.hours ∧ t.hours < 24 ∧ 0 ≤ t.minutes ∧ t.minutes < 60 ∧
      0 ≤ t.seconds ∧ t.seconds < 60 ∧ t.timezone = "UTC" := by
  unfold parse_time at h
  split at h
  · split at h
    · split at h
      · rename_i hc
        cases h
        exact ⟨hc.1, hc.2.1, hc.2.2.1, hc.2.2.2.1, hc.2.2.2.2.1, hc.2.2.2.2.2, rfl⟩
      · simp at h
    · simp at h
  · split at h
    · split at h
      · rename_i hc
        cases h
        exact ⟨hc.1, hc.2.1, hc.2.2.1, hc.2.2.2.1, hc.2.2.2.2.1, hc.2.2.2.2.2, rfl⟩
      · simp at h
    · simp at h
  · simp at h

theorem code_standard_hour (h : Int) :
    (if h = 0 then (12 : Int) else if h > 12 then h - 12 else h) =
      specStandardHour h := by
  unfold specStandardHour
  split_ifs <;> omega

/-! ## Claim C10 -/

/-- C10: every `Time` the core constructs has hours 0-23, minutes 0-59 and
seconds 0-59; the only construction site, `parse_time`, validates before
constructing, so a success carries only in-range fields. -/
theorem time_value_invariant (s : String) (t : Time)
    (h : parse_time s = .ok t) :
    0 ≤ t.hours ∧ t.hours < 24 ∧ 0 ≤ t.minutes ∧ t.minutes < 60 ∧
      0 ≤ t.seconds ∧ t.seconds < 60 := by
  have hr := parse_time_ranges s t h
  exact ⟨hr.1, hr.2.1, hr.2.2.1, hr.2.2.2.1, hr.2.2.2.2.1, hr.2.2.2.2.2.1⟩

theorem time_value_invariant_witness :
    0 ≤ (23 : Int) ∧ (23 : Int) < 24 ∧ 0 ≤ (59 : Int) ∧ (59 : Int) < 60 ∧
      0 ≤ (59 : Int) ∧ (59 : Int) < 60 :=
  time_value_invariant "23:59:59" ⟨23, 59, 59, "UTC"⟩ rfl

/-! ## Claim C2 -/

/-- C2: on a valid military time (with `use_24h` false) the converter picks
the spec's meridiem (`AM` iff hours < 12), applies the spec's hour mapping
(0 and 12 to 12, above 12 minus 12, else unchanged), renders the hour
unpadded with minutes and seconds zero-padded, and hits the three stated
boundary outputs. -/
theorem military_to_standard_mapping :
    (∀ mt t, parse_time mt = .ok t →
      military_to_standard_time mt false =
        .ok ⟨fmtInt (specStandardHour t.hours) ++ ':' ::
              (fmt02 t.minutes ++ ':' :: (fmt02 t.seconds ++ ' ' ::
                (specMeridiem t.hours).data))⟩) ∧
    military_to_standard_time "00:00:00" false = .ok "12:00:00 AM" ∧
    military_to_standard_time "12:00:00" false = .ok "12:00:00 PM" ∧
    military_to_standard_time "13:30:00" false = .ok "1:30:00 PM" := by
  refine ⟨?_, rfl, rfl, rfl⟩
  intro mt t h
  simp only [military_to_standard_time, h, Bool.false_eq_true, if_false]
  rw [code_standard_hour]
  simp only [specMeridiem]

theorem military_to_standard_mapping_witness :
    military_to_standard_time "13:30:00" false =
      .ok ⟨fmtInt (specStandardHour 13) ++ ':' ::
            (fmt02 30 ++ ':' :: (fmt02 0 ++ ' ' :: (specMeridiem 13).data))⟩ :=
  military_to_standard_mapping.1 "13:30:00" ⟨13, 30, 0, "UTC"⟩ rfl

/-! ## Claim C3 -/

/-- C3: on every input the source regex accepts, the converter applies the
spec's hour mapping (add 12 when PM and hour is not 12, zero when AM and
hour is 12, else unchanged) and renders zero-padded `HH:MM:SS`, with the two
stated noon/midnight outputs. -/
theorem standard_to_military_mapping :
    (∀ st h m so pm, matchStd st.data = some (h, m, so, pm) →
      standard_to_military_time st =
        .ok ⟨pad2 (specMilitaryHour h pm) ++ ':' ::
              (pad2 m ++ ':' :: pad2 (so.getD 0))⟩) ∧
    standard_to_military_time "12:00:00 AM" = .ok "00:00:00" ∧
    standard_to_military_time "12:00:00 PM" = .ok "12:00:00" := by
  refine ⟨?_, rfl, rfl⟩
  intro st h m so pm hm
  simp only [standard_to_military_time, hm, specMilitaryHour]

theorem standard_to_military_mapping_witness :
    standard_to_military_time "1:30:00 PM" =
      .ok ⟨pad2 (specMilitaryHour 1 true) ++ ':' ::
            (pad2 30 ++ ':' :: pad2 ((some 0).getD 0))⟩ :=
  standard_to_military_mapping.1 "1:30:00 PM" 1 30 (some 0) true rfl

/-! ## Claims C7, C8, C9: differences and durations -/

theorem toSeconds_range (s : String) (t : Time) (h : parse_time s = .ok t) :
    0 ≤ toSeconds t ∧ toSeconds t < 86400 := by
  have hr := parse_time_ranges s t h
  unfold toSeconds
  omega

/-- C7: `time_difference` is symmetric on valid inputs and renders an
unsigned zero-padded duration strictly below 24 hours. -/
theorem time_difference_spec :
    ∀ a b t1 t2, parse_time a = .ok t1 → parse_time b = .ok t2 →
      time_difference a b = time_difference b a ∧
      time_difference a b = .ok (renderHMS (specAbsDiff t1 t2)) ∧
      specAbsDiff t1 t2 < 86400 := by
  intro a b t1 t2 h1 h2
  obtain ⟨hA0, hA1⟩ := toSeconds_range a t1 h1
  obtain ⟨hB0, hB1⟩ := toSeconds_range b t2 h2
  unfold time_difference specAbsDiff
  rw [h1, h2]
  dsimp only
  refine ⟨?_, rfl, by omega⟩
  have hsym : (toSeconds t2 - toSeconds t1).natAbs =
      (toSeconds t1 - toSeconds t2).natAbs := by omega
  rw [hsym]

theorem time_difference_spec_witness :
    time_difference "23:50:00" "00:10:00" = time_difference "00:10:00" "23:50:00" ∧
    time_difference "23:50:00" "00:10:00" =
      .ok (renderHMS (specAbsDiff ⟨23, 50, 0, "UTC"⟩ ⟨0, 10, 0, "UTC"⟩)) ∧
    specAbsDiff ⟨23, 50, 0, "UTC"⟩ ⟨0, 10, 0, "UTC"⟩ < 86400 :=
  time_difference_spec "23:50:00" "00:10:00" ⟨23, 50, 0, "UTC"⟩ ⟨0, 10, 0, "UTC"⟩ rfl rfl

/-- C8: `calculate_duration` pushes an earlier end to the following day,
returns end minus start zero-padded, and the duration is nonnegative and
strictly below 24 hours; `calculate_duration "22:00:00" "02:00:00"` is
`"04:00:00"`. -/
theorem calculate_duration_spec :
    (∀ a b ts te, parse_time a = .ok ts → parse_time b = .ok te →
      0 ≤ specDuration ts te ∧ specDuration ts te < 86400 ∧
      calculate_duration a b = .ok (renderHMS (specDuration ts te).toNat)) ∧
    calculate_duration "22:00:00" "02:00:00" = .ok "04:00:00" := by
  refine ⟨?_, rfl⟩
  intro a b ts te ha hb
  obtain ⟨hA0, hA1⟩ := toSeconds_range a ts ha
  obtain ⟨hB0, hB1⟩ := toSeconds_range b te hb
  unfold calculate_duration specDuration
  rw [ha, hb]
  dsimp only
  by_cases hlt : toSeconds te < toSeconds ts
  · simp only [if_pos hlt]
    refine ⟨by omega, by omega, ?_⟩
    have he : (((toSeconds te + 86400 - toSeconds ts) % 86400).toNat) =
        (toSeconds te - toSeconds ts + 86400).toNat := by omega
    rw [he]
  · simp only [if_neg hlt]
    refine ⟨by omega, by omega, ?_⟩
    have he : (((toSeconds te - toSeconds ts) % 86400).toNat) =
        (toSeconds te - toSeconds ts + 0).toNat := by omega
    rw [he]

theorem calculate_duration_spec_witness :
    0 ≤ specDuration ⟨22, 0, 0, "UTC"⟩ ⟨2, 0, 0, "UTC"⟩ ∧
    specDuration ⟨22, 0, 0, "UTC"⟩ ⟨2, 0, 0, "UTC"⟩ < 86400 ∧
    calculate_duration "22:00:00" "02:00:00" =
      .ok (renderHMS (specDuration ⟨22, 0, 0, "UTC"⟩ ⟨2, 0, 0, "UTC"⟩).toNat) :=
  calculate_duration_spec.1 "22:00:00" "02:00:00" ⟨22, 0, 0, "UTC"⟩ ⟨2, 0, 0, "UTC"⟩ rfl rfl

/-- C9 is refuted: on identical start and end the rollover branch is not
taken (`end < start` is strict), the duration is zero, and the result
collapses to `"00:00:00"` instead of the claimed 24-hour rendering. -/
theorem calculate_duration_identical_cex :
    calculate_duration "10:00:00" "10:00:00" = .ok "00:00:00" ∧
      calculate_duration "10:00:00" "10:00:00" ≠ .ok "24:00:00" := by
  refine ⟨rfl, ?_⟩
  intro hcontra
  rw [show calculate_duration "10:00:00" "10:00:00" = .ok "00:00:00" from rfl,
    Except.ok.injEq] at hcontra
  exact absurd hcontra (by decide)

/-- C9 (amended): for every valid time `t`, `calculate_duration t t`
collapses to `"00:00:00"` (zero elapsed), because the following-day rollover
applies only when the end is strictly earlier than the start. -/
theorem calculate_duration_identical (s : String) (t : Time)
    (h : parse_time s = .ok t) : calculate_duration s s = .ok "00:00:00" := by
  unfold calculate_duration
  rw [h]
  simp only [lt_self_iff_false, if_false, sub_self, Int.zero_emod, Int.toNat_zero]
  rfl

theorem calculate_duration_identical_witness :
    calculate_duration "05:00:00" "05:00:00" = .ok "00:00:00" :=
  calculate_duration_identical "05:00:00" ⟨5, 0, 0, "UTC"⟩ rfl

/-! ## Claim C6 -/

/-- C6 is refuted for unbounded offsets: `timedelta(hours=10 ^ 12)` exceeds
Python's 999999999-day bound, so the call raises `OverflowError` instead of
returning the wrapped rendering (which would be `"16:00:00"`). -/
theorem add_time_overflow_cex :
    add_time "00:00:00" 1000000000000 0 0 = .error .overflowError ∧
      add_time "00:00:00" 1000000000000 0 0 ≠ .ok "16:00:00" := by
  refine ⟨rfl, ?_⟩
  intro h
  rw [show add_time "00:00:00" 1000000000000 0 0 = .error .overflowError from
    rfl] at h
  exact Except.noConfusion h

/-- C6 (amended): on a valid base time, whenever the signed offset keeps the
`timedelta` within its day bound and the shifted anchored `datetime` within
Python's representable range, `add_time` renders base plus offset modulo 24
hours, zero-padded; and `subtract_time` agrees with `add_time` on the
negated components whenever both offsets pass the `timedelta` bound.
Offsets outside those bounds raise `OverflowError` instead. -/
theorem add_subtract_spec :
    (∀ ts t H M S, parse_time ts = .ok t →
      timedeltaOk (3600 * H + 60 * M + S) = true →
      0 ≤ anchorSeconds + toSeconds t + (3600 * H + 60 * M + S) →
      anchorSeconds + toSeconds t + (3600 * H + 60 * M + S) < maxDatetimeSeconds →
      add_time ts H M S =
        .ok (renderHMS (((toSeconds t + (3600 * H + 60 * M + S)) % 86400).toNat))) ∧
    (∀ ts H M S, timedeltaOk (3600 * H + 60 * M + S) = true →
      timedeltaOk (-(3600 * H + 60 * M + S)) = true →
      subtract_time ts H M S = add_time ts (-H) (-M) (-S)) := by
  constructor
  · intro ts t H M S hp htd h0 h1
    unfold add_time
    rw [hp]
    dsimp only
    rw [htd]
    rw [if_neg (by simp)]
    rw [if_neg (by push_neg; exact ⟨by omega, by omega⟩)]
    have hm : (anchorSeconds + toSeconds t + (3600 * H + 60 * M + S)) % 86400 =
        (toSeconds t + (3600 * H + 60 * M + S)) % 86400 := by
      unfold anchorSeconds
      omega
    rw [hm]
  · intro ts H M S h1 h2
    unfold subtract_time add_time
    cases hp : parse_time ts with
    | error e => rfl
    | ok t =>
      dsimp only
      have hneg : 3600 * (-H) + 60 * (-M) + -S = -(3600 * H + 60 * M + S) := by
        ring
      have hr : anchorSeconds + toSeconds t + -(3600 * H + 60 * M + S) =
          anchorSeconds + toSeconds t - (3600 * H + 60 * M + S) := by ring
      rw [hneg, h1, h2, hr]

theorem add_subtract_spec_witness :
    add_time "23:50:00" 0 20 0 =
      .ok (renderHMS (((toSeconds ⟨23, 50, 0, "UTC"⟩ +
        (3600 * 0 + 60 * 20 + 0)) % 86400).toNat)) ∧
    subtract_time "00:10:00" 0 20 0 = add_time "00:10:00" 0 (-20) 0 :=
  ⟨add_subtract_spec.1 "23:50:00" ⟨23, 50, 0, "UTC"⟩ 0 20 0 rfl rfl
      (by decide) (by decide),
    add_subtract_spec.2 "00:10:00" 0 20 0 rfl rfl⟩

/-! ## Claim C4 -/

/-- C4 is refuted on two points: Python's `int()` accepts a sign (and
surrounding whitespace and underscores), so `"+1:05"` parses although its
first field is not a bare digit run; and a non-numeric field such as in
`"ab:cd"` raises a plain `ValueError`, not the `TimeFormatError` the claim
names. -/
theorem parse_time_cex :
    parse_time "+1:05" = .ok ⟨1, 5, 0, "UTC"⟩ ∧
      ("+1".data.all Char.isDigit) = false ∧
      parse_time "ab:cd" = .error .valueError :=
  ⟨rfl, rfl, rfl⟩

/-- C4 (amended): `parse_time` succeeds exactly on two or three
colon-separated fields that Python's `int()` accepts (optional surrounding
whitespace, optional sign, digits with underscore separators) with hours in
[0,24), minutes in [0,60), seconds in [0,60) (a missing seconds field is 0);
any other field count or an out-of-range value is a `TimeFormatError`, while
non-integer field content raises `ValueError`. -/
theorem parse_time_characterisation :
    (∀ s : String, (splitCols s.data).length ≠ 2 →
      (splitCols s.data).length ≠ 3 →
      parse_time s =
        .error (.timeFormatError "Invalid time format. Please use HH:MM or HH:MM:SS.")) ∧
    (∀ s : String, ∀ a b, splitCols s.data = [a, b] →
      pythonInt a = none ∨ pythonInt b = none →
      parse_time s = .error .valueError) ∧
    (∀ s : String, ∀ a b c, splitCols s.data = [a, b, c] →
      pythonInt a = none ∨ pythonInt b = none ∨ pythonInt c = none →
      parse_time s = .error .valueError) ∧
    (∀ s : String, ∀ a b h m, splitCols s.data = [a, b] →
      pythonInt a = some h → pythonInt b = some m →
      ((0 ≤ h ∧ h < 24 ∧ 0 ≤ m ∧ m < 60 →
          parse_time s = .ok ⟨h, m, 0, "UTC"⟩) ∧
        (¬(0 ≤ h ∧ h < 24 ∧ 0 ≤ m ∧ m < 60) →
          parse_time s = .error (.timeFormatError "Time values out of valid range.")))) ∧
    (∀ s : String, ∀ a b c h m sec, splitCols s.data = [a, b, c] →
      pythonInt a = some h → pythonInt b = some m → pythonInt c = some sec →
      ((0 ≤ h ∧ h < 24 ∧ 0 ≤ m ∧ m < 60 ∧ 0 ≤ sec ∧ sec < 60 →
          parse_time s = .ok ⟨h, m, sec, "UTC"⟩) ∧
        (¬(0 ≤ h ∧ h < 24 ∧ 0 ≤ m ∧ m < 60 ∧ 0 ≤ sec ∧ sec < 60) →
          parse_time s = .error (.timeFormatError "Time values out of valid range.")))) := by
  refine ⟨?_, ?_, ?_, ?_, ?_⟩
  · intro s h2 h3
    unfold parse_time
    rcases hs : splitCols s.data with _ | ⟨p1, _ | ⟨p2, _ | ⟨p3, _ | r⟩⟩⟩
    · rfl
    · rfl
    · exact absurd (by rw [hs]; rfl) h2
    · exact absurd (by rw [hs]; rfl) h3
    · rfl
  · intro s a b hs hn
    unfold parse_time
    rw [hs]
    dsimp only
    rcases hn with hn | hn
    · rw [hn]
    · rw [hn]
      cases pythonInt a <;> rfl
  · intro s a b c hs hn
    unfold parse_time
    rw [hs]
    dsimp only
    rcases hn with hn | hn | hn
    · rw [hn]
    · rw [hn]
      cases pythonInt a <;> rfl
    · rw [hn]
      cases pythonInt a <;> cases pythonInt b <;> rfl
  · intro s a b h m hs hha hhb
    unfold parse_time
    rw [hs]
    dsimp only
    rw [hha, hhb]
    dsimp only
    constructor
    · intro hrange
      rw [if_pos ⟨hrange.1, hrange.2.1, hrange.2.2.1, hrange.2.2.2, by omega, by omega⟩]
    · intro hrange
      rw [if_neg (by tauto)]
  · intro s a b c h m sec hs hha hhb hhc
    unfold parse_time
    rw [hs]
    dsimp only
    rw [hha, hhb, hhc]
    dsimp only
    constructor
    · intro hrange
      rw [if_pos hrange]
    · intro hrange
      rw [if_neg hrange]

/-! ## Digit and rendering lemmas for the round trip -/

theorem pad2_lt100 : ∀ n : Nat, n < 100 →
    pad2 n = [digitChar (n / 10), digitChar (n % 10)] := by decide

theorem pythonInt_pad2 : ∀ n : Nat, n < 100 →
    pythonInt (pad2 n) = some (n : Int) := by decide

theorem pad2_no_colon : ∀ n : Nat, n < 100 → ∀ c ∈ pad2 n, c ≠ ':' := by decide

theorem digitChar_facts : ∀ k : Nat, k < 10 →
    '0' ≤ digitChar k ∧ digitChar k ≤ '9' ∧ charDigit (digitChar k) = k := by
  decide

theorem digitChar_le5 : ∀ k : Nat, k < 6 → digitChar k ≤ '5' := by decide

theorem digitChar_hour : ∀ k : Nat, 1 ≤ k → k ≤ 9 →
    '1' ≤ digitChar k ∧ digitChar k ≤ '9' ∧ digitChar k ≠ '0' := by decide

theorem digitChar_le2 : ∀ k : Nat, k < 3 → digitChar k ≤ '2' := by decide

theorem fmt02_natCast (n : Nat) : fmt02 (n : Int) = pad2 n := by
  unfold fmt02
  rw [if_neg (by omega), Int.toNat_natCast]

/-- The canonical zero-padded rendering parses back to the same fields. -/
theorem parse_time_canonical (h m s : Nat)
    (hh : h < 24) (hm : m < 60) (hs : s < 60) :
    parse_time ⟨pad2 h ++ ':' :: (pad2 m ++ ':' :: pad2 s)⟩ =
      .ok ⟨(h : Int), (m : Int), (s : Int), "UTC"⟩ := by
  unfold parse_time
  rw [show (String.mk (pad2 h ++ ':' :: (pad2 m ++ ':' :: pad2 s))).data =
    pad2 h ++ ':' :: (pad2 m ++ ':' :: pad2 s) from rfl]
  rw [splitCols_append _ _ (pad2_no_colon h (by omega))]
  rw [splitCols_append _ _ (pad2_no_colon m (by omega))]
  rw [splitCols_no_colon _ (pad2_no_colon s (by omega))]
  dsimp only
  rw [pythonInt_pad2 h (by omega), pythonInt_pad2 m (by omega),
    pythonInt_pad2 s (by omega)]
  dsimp only
  rw [if_pos (by omega)]

/-! ## Evaluation lemmas for the regex matcher -/

theorem spaceMeridiem_eval (rest : List Char) (pm : Bool)
    (h : matchMeridiemEnd rest = some pm) :
    matchSpaceMeridiem (' ' :: rest) = some pm := by
  unfold matchSpaceMeridiem
  dsimp only
  rw [if_pos rfl, h]

theorem secTail_eval (a b : Nat) (rest : List Char) (pm : Bool)
    (ha : a < 6) (hb : b < 10) (h : matchSpaceMeridiem rest = some pm) :
    matchSecTail (digitChar a :: digitChar b :: rest) =
      some (some (10 * a + b), pm) := by
  obtain ⟨ha0, _, hav⟩ := digitChar_facts a (by omega)
  obtain ⟨hb0, hb9, hbv⟩ := digitChar_facts b hb
  have ha5 := digitChar_le5 a ha
  unfold matchSecTail
  dsimp only
  rw [if_pos ⟨⟨ha0, ha5⟩, ⟨hb0, hb9⟩⟩, h]
  dsimp only [Option.map]
  rw [hav, hbv]

theorem colonSecTail_eval (rest : List Char) (r : Option Nat × Bool)
    (h : matchSecTail rest = some r) :
    matchColonSecTail (':' :: rest) = some r := by
  unfold matchColonSecTail
  dsimp only
  rw [if_pos rfl, h]

theorem minutes_eval (a b : Nat) (rest : List Char) (r : Option Nat × Bool)
    (ha : a < 6) (hb : b < 10) (h : matchColonSecTail rest = some r) :
    matchMinutes (digitChar a :: digitChar b :: rest) =
      some (10 * a + b, r) := by
  obtain ⟨ha0, _, hav⟩ := digitChar_facts a (by omega)
  obtain ⟨hb0, hb9, hbv⟩ := digitChar_facts b hb
  have ha5 := digitChar_le5 a ha
  unfold matchMinutes
  dsimp only
  rw [if_pos ⟨⟨ha0, ha5⟩, ⟨hb0, hb9⟩⟩, h]
  dsimp only [Option.map]
  rw [hav, hbv]

/-- Hour stage, one-digit hour `1`-`9`: the first regex alternative cannot
apply (no `:` in `[0-2]` position), the `0`-prefixed one cannot either, so
the bare `[1-9]` alternative fires. -/
theorem hour_one_digit_eval (d : Nat) (x : Char) (rest : List Char)
    (r : Nat × Option Nat × Bool) (h1 : 1 ≤ d) (h9 : d ≤ 9)
    (h : matchMinutes (x :: rest) = some r) :
    matchStd (digitChar d :: ':' :: x :: rest) = some (d, r) := by
  obtain ⟨hd1, hd9, hd0⟩ := digitChar_hour d h1 h9
  have hdv := (digitChar_facts d (by omega)).2.2
  unfold matchStd
  dsimp only
  rw [if_neg (fun hcon => absurd hcon.2.1.2 (by decide))]
  dsimp only
  rw [if_neg (fun hcon => absurd hcon.1 hd0)]
  dsimp only
  rw [if_pos ⟨⟨hd1, hd9⟩, rfl⟩, h]
  dsimp only [Option.map]
  rw [hdv]

/-- Hour stage, two-digit hour `10`-`12`: the first regex alternative fires
directly. -/
theorem hour_two_digit_eval (c : Nat) (rest : List Char)
    (r : Nat × Option Nat × Bool) (hc : c < 3)
    (h : matchMinutes rest = some r) :
    matchStd ('1' :: digitChar c :: ':' :: rest) = some (10 + c, r) := by
  obtain ⟨hc0, _, hcv⟩ := digitChar_facts c (by omega)
  have hc2 := digitChar_le2 c hc
  unfold matchStd
  dsimp only
  rw [if_pos ⟨rfl, ⟨hc0, hc2⟩, rfl⟩, h]
  dsimp only [Option.map]
  rw [hcv]

/-- Full evaluation of the matcher on a rendered standard time. -/
theorem matchStd_full (hd : List Char) (hv : Nat) (P : Char) (pm : Bool)
    (m s : Nat) (hm : m < 60) (hs : s < 60)
    (hhour : ∀ x rest r, matchMinutes (x :: rest) = some r →
      matchStd (hd ++ ':' :: x :: rest) = some (hv, r))
    (hmer : matchMeridiemEnd [P, 'M'] = some pm) :
    matchStd (hd ++ ':' :: (pad2 m ++ ':' :: (pad2 s ++ ' ' :: P :: ['M']))) =
      some (hv, m, some s, pm) := by
  have e1 := spaceMeridiem_eval [P, 'M'] pm hmer
  have e2 := secTail_eval (s / 10) (s % 10) (' ' :: P :: ['M']) pm
    (by omega) (by omega) e1
  have e3 := colonSecTail_eval _ _ e2
  have e4 := minutes_eval (m / 10) (m % 10) _ _ (by omega) (by omega) e3
  rw [Nat.div_add_mod m 10] at e4
  rw [Nat.div_add_mod s 10] at e4
  have e5 := hhour (digitChar (m / 10))
    (digitChar (m % 10) :: ':' :: digitChar (s / 10) :: digitChar (s % 10) ::
      ' ' :: P :: ['M']) (m, some s, pm) e4
  rw [pad2_lt100 m (by omega), pad2_lt100 s (by omega)]
  simp only [List.cons_append, List.nil_append]
  exact e5

theorem except_bind_ok (u : String) (f : String → Except PyError String) :
    (Except.ok (ε := PyError) u).bind f = f u := rfl

/-- Standard-to-military on a rendered standard time, with the hour mapped
back by the source's PM/AM adjustment. -/
theorem s2m_eval (hd : List Char) (hv h24 : Nat) (P : Char) (pm : Bool)
    (m s : Nat) (hm : m < 60) (hs : s < 60)
    (hhour : ∀ x rest r, matchMinutes (x :: rest) = some r →
      matchStd (hd ++ ':' :: x :: rest) = some (hv, r))
    (hmer : matchMeridiemEnd [P, 'M'] = some pm)
    (hmap : (if pm = true ∧ hv ≠ 12 then hv + 12
      else if pm = false ∧ hv = 12 then 0 else hv) = h24) :
    standard_to_military_time
        ⟨hd ++ ':' :: (pad2 m ++ ':' :: (pad2 s ++ ' ' :: P :: ['M']))⟩ =
      .ok ⟨pad2 h24 ++ ':' :: (pad2 m ++ ':' :: pad2 s)⟩ := by
  unfold standard_to_military_time
  rw [show (String.mk
    (hd ++ ':' :: (pad2 m ++ ':' :: (pad2 s ++ ' ' :: P :: ['M'])))).data =
    hd ++ ':' :: (pad2 m ++ ':' :: (pad2 s ++ ' ' :: P :: ['M'])) from rfl]
  rw [matchStd_full hd hv P pm m s hm hs hhour hmer]
  dsimp only [Option.getD]
  rw [hmap]

/-- C1: for every valid 24-hour time, converting to standard time and back
reproduces the zero-padded `HH:MM:SS` form. -/
theorem round_trip (h m s : Nat) (hh : h < 24) (hm : m < 60) (hs : s < 60) :
    (military_to_standard_time ⟨pad2 h ++ ':' :: (pad2 m ++ ':' :: pad2 s)⟩
        false).bind standard_to_military_time =
      .ok ⟨pad2 h ++ ':' :: (pad2 m ++ ':' :: pad2 s)⟩ := by
  have hp := parse_time_canonical h m s hh hm hs
  unfold military_to_standard_time
  rw [hp]
  dsimp only
  simp only [Bool.false_eq_true, if_false]
  rw [fmt02_natCast m, fmt02_natCast s]
  rw [except_bind_ok]
  interval_cases h <;> norm_num
  · exact s2m_eval ['1', digitChar 2] 12 0 'A' false m s hm hs
      (fun x rest r hr => hour_two_digit_eval 2 (x :: rest) r (by omega) hr)
      (by decide) (by decide)
  · exact s2m_eval [digitChar 1] 1 1 'A' false m s hm hs
      (fun x rest r hr => hour_one_digit_eval 1 x rest r (by omega) (by omega) hr)
      (by decide) (by decide)
  · exact s2m_eval [digitChar 2] 2 2 'A' false m s hm hs
      (fun x rest r hr => hour_one_digit_eval 2 x rest r (by omega) (by omega) hr)
      (by decide) (by decide)
  · exact s2m_eval [digitChar 3] 3 3 'A' false m s hm hs
      (fun x rest r hr => hour_one_digit_eval 3 x rest r (by omega) (by omega) hr)
      (by decide) (by decide)
  · exact s2m_eval [digitChar 4] 4 4 'A' false m s hm hs
      (fun x rest r hr => hour_one_digit_eval 4 x rest r (by omega) (by omega) hr)
      (by decide) (by decide)
  · exact s2m_eval [digitChar 5] 5 5 'A' false m s hm hs
      (fun x rest r hr => hour_one_digit_eval 5 x rest r (by omega) (by omega) hr)
      (by decide) (by decide)
  · exact s2m_eval [digitChar 6] 6 6 'A' false m s hm hs
      (fun x rest r hr => hour_one_digit_eval 6 x rest r (by omega) (by omega) hr)
      (by decide) (by decide)
  · exact s2m_eval [digitChar 7] 7 7 'A' false m s hm hs
      (fun x rest r hr => hour_one_digit_eval 7 x rest r (by omega) (by omega) hr)
      (by decide) (by decide)
  · exact s2m_eval [digitChar 8] 8 8 'A' false m s hm hs
      (fun x rest r hr => hour_one_digit_eval 8 x rest r (by omega) (by omega) hr)
      (by decide) (by decide)
  · exact s2m_eval [digitChar 9] 9 9 'A' false m s hm hs
      (fun x rest r hr => hour_one_digit_eval 9 x rest r (by omega) (by omega) hr)
      (by decide) (by decide)
  · exact s2m_eval ['1', digitChar 0] 10 10 'A' false m s hm hs
      (fun x rest r hr => hour_two_digit_eval 0 (x :: rest) r (by omega) hr)
      (by decide) (by decide)
  · exact s2m_eval ['1', digitChar 1] 11 11 'A' false m s hm hs
      (fun x rest r hr => hour_two_digit_eval 1 (x :: rest) r (by omega) hr)
      (by decide) (by decide)
  · exact s2m_eval ['1', digitChar 2] 12 12 'P' true m s hm hs
      (fun x rest r hr => hour_two_digit_eval 2 (x :: rest) r (by omega) hr)
      (by decide) (by decide)
  · exact s2m_eval [digitChar 1] 1 13 'P' true m s hm hs
      (fun x rest r hr => hour_one_digit_eval 1 x rest r (by omega) (by omega) hr)
      (by decide) (by decide)
  · exact s2m_eval [digitChar 2] 2 14 'P' true m s hm hs
      (fun x rest r hr => hour_one_digit_eval 2 x rest r (by omega) (by omega) hr)
      (by decide) (by decide)
  · exact s2m_eval [digitChar 3] 3 15 'P' true m s hm hs
      (fun x rest r hr => hour_one_digit_eval 3 x rest r (by omega) (by omega) hr)
      (by decide) (by decide)
  · exact s2m_eval [digitChar 4] 4 16 'P' true m s hm hs
      (fun x rest r hr => hour_one_digit_eval 4 x rest r (by omega) (by omega) hr)
      (by decide) (by decide)
  · exact s2m_eval [digitChar 5] 5 17 'P' true m s hm hs
      (fun x rest r hr => hour_one_digit_eval 5 x rest r (by omega) (by omega) hr)
      (by decide) (by decide)
  · exact s2m_eval [digitChar 6] 6 18 'P' true m s hm hs
      (fun x rest r hr => hour_one_digit_eval 6 x rest r (by omega) (by omega) hr)
      (by decide) (by decide)
  · exact s2m_eval [digitChar 7] 7 19 'P' true m s hm hs
      (fun x rest r hr => hour_one_digit_eval 7 x rest r (by omega) (by omega) hr)
      (by decide) (by decide)
  · exact s2m_eval [digitChar 8] 8 20 'P' true m s hm hs
      (fun x rest r hr => hour_one_digit_eval 8 x rest r (by omega) (by omega) hr)
      (by decide) (by decide)
  · exact s2m_eval [digitChar 9] 9 21 'P' true m s hm hs
      (fun x rest r hr => hour_one_digit_eval 9 x rest r (by omega) (by omega) hr)
      (by decide) (by decide)
  · exact s2m_eval ['1', digitChar 0] 10 22 'P' true m s hm hs
      (fun x rest r hr => hour_two_digit_eval 0 (x :: rest) r (by omega) hr)
      (by decide) (by decide)
  · exact s2m_eval ['1', digitChar 1] 11 23 'P' true m s hm hs
      (fun x rest r hr => hour_two_digit_eval 1 (x :: rest) r (by omega) hr)
      (by decide) (by decide)

theorem round_trip_witness :
    (military_to_standard_time ⟨pad2 0 ++ ':' :: (pad2 0 ++ ':' :: pad2 0)⟩
        false).bind standard_to_military_time =
      .ok ⟨pad2 0 ++ ':' :: (pad2 0 ++ ':' :: pad2 0)⟩ :=
  round_trip 0 0 0 (by decide) (by decide) (by decide)

/-! ## Equivalence of the matcher with the amended grammar -/

theorem meridiem_end_none (c : Char) (rest : List Char)
    (hA : c ≠ 'A') (ha : c ≠ 'a') (hP : c ≠ 'P') (hq : c ≠ 'p') :
    matchMeridiemEnd (c :: rest) = none := by
  unfold matchMeridiemEnd
  rcases rest with _ | ⟨c2, rest⟩
  · rfl
  · dsimp only
    rw [if_neg (fun hcon => hcon.1.elim hA ha)]
    rw [if_neg (fun hcon => hcon.1.elim hP hq)]

theorem spaceMeridiem_none (c : Char) (rest : List Char)
    (hA : c ≠ 'A') (ha : c ≠ 'a') (hP : c ≠ 'P') (hq : c ≠ 'p')
    (hsp : c ≠ ' ') : matchSpaceMeridiem (c :: rest) = none := by
  unfold matchSpaceMeridiem
  dsimp only
  rw [if_neg hsp]
  exact meridiem_end_none c rest hA ha hP hq

theorem digit_chars (c : Char) (h0 : '0' ≤ c) (h9 : c ≤ '9') :
    c ≠ 'A' ∧ c ≠ 'a' ∧ c ≠ 'P' ∧ c ≠ 'p' ∧ c ≠ ' ' ∧ c ≠ ':' := by
  refine ⟨?_, ?_, ?_, ?_, ?_, ?_⟩ <;> intro he <;> subst he <;>
    revert h0 h9 <;> decide

theorem spaceMeridiem_digit_none (c : Char) (rest : List Char)
    (h0 : '0' ≤ c) (h9 : c ≤ '9') : matchSpaceMeridiem (c :: rest) = none := by
  obtain ⟨hA, ha, hP, hq, hsp, _⟩ := digit_chars c h0 h9
  exact spaceMeridiem_none c rest hA ha hP hq hsp

theorem spaceMeridiem_colon_none (rest : List Char) :
    matchSpaceMeridiem (':' :: rest) = none :=
  spaceMeridiem_none ':' rest (by decide) (by decide) (by decide) (by decide)
    (by decide)

theorem spaceMeridiem_single (d : Char) : matchSpaceMeridiem [d] = none := by
  unfold matchSpaceMeridiem
  dsimp only
  by_cases hd : d = ' '
  · rw [if_pos hd]
    rfl
  · rw [if_neg hd]
    unfold matchMeridiemEnd
    rfl

theorem specSpaceMeridiem_single (d : Char) : specSpaceMeridiem [d] = false := by
  unfold specSpaceMeridiem
  dsimp only
  by_cases hd : d = ' '
  · rw [if_pos hd]
    rfl
  · rw [if_neg hd]
    rfl

theorem meridiem_equiv (cs : List Char) :
    (matchMeridiemEnd cs).isSome = specMeridiemChk cs := by
  unfold matchMeridiemEnd specMeridiemChk
  rcases cs with _ | ⟨c1, _ | ⟨c2, rest⟩⟩
  · rfl
  · rfl
  · dsimp only
    by_cases hA : (c1 = 'A' ∨ c1 = 'a') ∧ (c2 = 'M' ∨ c2 = 'm') ∧
        matchEnd rest = true
    · rw [if_pos hA, if_pos ⟨Or.inl hA.1, hA.2.1⟩]
      exact hA.2.2.symm
    · rw [if_neg hA]
      by_cases hP : (c1 = 'P' ∨ c1 = 'p') ∧ (c2 = 'M' ∨ c2 = 'm') ∧
          matchEnd rest = true
      · rw [if_pos hP, if_pos ⟨Or.inr hP.1, hP.2.1⟩]
        exact hP.2.2.symm
      · rw [if_neg hP]
        by_cases hG : ((c1 = 'A' ∨ c1 = 'a') ∨ (c1 = 'P' ∨ c1 = 'p')) ∧
            (c2 = 'M' ∨ c2 = 'm')
        · rw [if_pos hG]
          rcases hG.1 with h1 | h1
          · have hend : ¬(matchEnd rest = true) := fun he => hA ⟨h1, hG.2, he⟩
            rw [Bool.not_eq_true] at hend
            exact hend.symm
          · have hend : ¬(matchEnd rest = true) := fun he => hP ⟨h1, hG.2, he⟩
            rw [Bool.not_eq_true] at hend
            exact hend.symm
        · rw [if_neg hG]
          rfl

theorem spaceMeridiem_equiv (cs : List Char) :
    (matchSpaceMeridiem cs).isSome = specSpaceMeridiem cs := by
  rcases cs with _ | ⟨c, rest⟩
  · exact meridiem_equiv []
  · unfold matchSpaceMeridiem specSpaceMeridiem
    dsimp only
    by_cases hc : c = ' '
    · rw [if_pos hc, if_pos hc]
      subst hc
      cases hm : matchMeridiemEnd rest with
      | none =>
        dsimp only
        rw [meridiem_end_none ' ' rest (by decide) (by decide) (by decide)
          (by decide)]
        rw [← meridiem_equiv rest, hm]
      | some b =>
        dsimp only
        rw [← meridiem_equiv rest, hm]
    · rw [if_neg hc, if_neg hc]
      exact meridiem_equiv (c :: rest)

theorem secTail_colon_none (rest : List Char) :
    matchSecTail (':' :: rest) = none := by
  unfold matchSecTail
  rcases rest with _ | ⟨c2, rest⟩
  · dsimp only
    rw [if_neg (fun hcon => absurd hcon.2 (by decide))]
    dsimp only
    rw [spaceMeridiem_colon_none []]
    rfl
  · dsimp only
    rw [if_neg (fun hcon => absurd hcon.1.2 (by decide))]
    dsimp only
    rw [if_neg (fun hcon => absurd hcon.2 (by decide))]
    dsimp only
    rw [spaceMeridiem_colon_none (c2 :: rest)]
    rfl

theorem secTail_single (d : Char) : matchSecTail [d] = none := by
  unfold matchSecTail
  dsimp only
  by_cases hd : '0' ≤ d ∧ d ≤ '9'
  · rw [if_pos hd, show matchSpaceMeridiem [] = none from rfl]
    dsimp only [Option.map]
    rw [spaceMeridiem_single d]
  · rw [if_neg hd]
    dsimp only
    rw [spaceMeridiem_single d]
    rfl

theorem specSeconds_single (d : Char) : specSeconds [d] = false := by
  unfold specSeconds
  dsimp only
  by_cases hd : '0' ≤ d ∧ d ≤ '9'
  · rw [if_pos hd]
    rfl
  · rw [if_neg hd]
    exact specSpaceMeridiem_single d

theorem secTail_equiv (cs : List Char) :
    (matchSecTail cs).isSome = specSeconds cs := by
  rcases cs with _ | ⟨d1, _ | ⟨d2, rest⟩⟩
  · rfl
  · rw [secTail_single d1, specSeconds_single d1]
    rfl
  · unfold matchSecTail specSeconds
    dsimp only
    by_cases hG : ('0' ≤ d1 ∧ d1 ≤ '5') ∧ ('0' ≤ d2 ∧ d2 ≤ '9')
    · rw [if_pos hG, if_pos hG]
      cases hsp : matchSpaceMeridiem rest with
      | some b =>
        rw [← spaceMeridiem_equiv rest, hsp]
        rfl
      | none =>
        rw [← spaceMeridiem_equiv rest, hsp]
        dsimp only [Option.map]
        rw [if_pos ⟨hG.1.1, le_trans hG.1.2 (by decide)⟩]
        rw [spaceMeridiem_digit_none d2 rest hG.2.1 hG.2.2]
        dsimp only [Option.map]
        rw [spaceMeridiem_digit_none d1 (d2 :: rest) hG.1.1
          (le_trans hG.1.2 (by decide))]
        rfl
    · rw [if_neg hG, if_neg hG]
      by_cases hd : '0' ≤ d1 ∧ d1 ≤ '9'
      · rw [if_pos hd, if_pos hd]
        cases hsp : matchSpaceMeridiem (d2 :: rest) with
        | some b =>
          rw [← spaceMeridiem_equiv (d2 :: rest), hsp]
          rfl
        | none =>
          rw [← spaceMeridiem_equiv (d2 :: rest), hsp]
          dsimp only [Option.map]
          rw [spaceMeridiem_digit_none d1 (d2 :: rest) hd.1 hd.2]
          rfl
      · rw [if_neg hd, if_neg hd]
        cases hsp : matchSpaceMeridiem (d1 :: d2 :: rest) with
        | some b =>
          rw [← spaceMeridiem_equiv (d1 :: d2 :: rest), hsp]
          rfl
        | none =>
          rw [← spaceMeridiem_equiv (d1 :: d2 :: rest), hsp]
          rfl

theorem colonSecTail_equiv (cs : List Char) :
    (matchColonSecTail cs).isSome = specColonSeconds cs := by
  rcases cs with _ | ⟨c, rest⟩
  · exact secTail_equiv []
  · unfold matchColonSecTail specColonSeconds
    dsimp only
    by_cases hc : c = ':'
    · rw [if_pos hc, if_pos hc]
      subst hc
      cases hst : matchSecTail rest with
      | some r =>
        dsimp only
        rw [← secTail_equiv rest, hst]
      | none =>
        dsimp only
        rw [secTail_colon_none rest]
        rw [← secTail_equiv rest, hst]
    · rw [if_neg hc, if_neg hc]
      exact secTail_equiv (c :: rest)

theorem minutes_equiv (cs : List Char) :
    (matchMinutes cs).isSome = specMinutes cs := by
  rcases cs with _ | ⟨d1, _ | ⟨d2, rest⟩⟩
  · rfl
  · rfl
  · unfold matchMinutes specMinutes
    dsimp only
    by_cases hG : ('0' ≤ d1 ∧ d1 ≤ '5') ∧ ('0' ≤ d2 ∧ d2 ≤ '9')
    · rw [if_pos hG, if_pos hG]
      cases hct : matchColonSecTail rest with
      | some r =>
        rw [← colonSecTail_equiv rest, hct]
        rfl
      | none =>
        rw [← colonSecTail_equiv rest, hct]
        rfl
    · rw [if_neg hG, if_neg hG]
      rfl

theorem matchStd_two (c0 c1 : Char) : matchStd [c0, c1] = none := by
  unfold matchStd
  dsimp only
  by_cases hG : ('1' ≤ c0 ∧ c0 ≤ '9') ∧ c1 = ':'
  · rw [if_pos hG]
    rfl
  · rw [if_neg hG]

theorem matchStd_equiv (cs : List Char) :
    (matchStd cs).isSome = standardGrammarSpec cs := by
  rcases cs with _ | ⟨c0, _ | ⟨c1, _ | ⟨c2, rest⟩⟩⟩
  · rfl
  · rfl
  · rw [matchStd_two c0 c1]
    rfl
  · unfold matchStd standardGrammarSpec
    dsimp only
    by_cases h1 : c0 = '1' ∧ ('0' ≤ c1 ∧ c1 ≤ '2') ∧ c2 = ':'
    · rw [if_pos h1, if_pos h1]
      cases hm : matchMinutes rest with
      | some r =>
        rw [← minutes_equiv rest, hm]
        rfl
      | none =>
        rw [← minutes_equiv rest, hm]
        dsimp only [Option.map]
        rw [if_neg (fun hcon => absurd (h1.1.symm.trans hcon.1) (by decide))]
        dsimp only
        rw [if_neg (fun hcon => absurd (hcon.2 ▸ h1.2.1.2) (by decide))]
        rfl
    · rw [if_neg h1, if_neg h1]
      by_cases h2 : c0 = '0' ∧ ('1' ≤ c1 ∧ c1 ≤ '9') ∧ c2 = ':'
      · rw [if_pos h2, if_pos h2]
        cases hm : matchMinutes rest with
        | some r =>
          rw [← minutes_equiv rest, hm]
          rfl
        | none =>
          rw [← minutes_equiv rest, hm]
          dsimp only [Option.map]
          rw [if_neg (fun hcon => absurd (h2.1 ▸ hcon.1.1) (by decide))]
          rfl
      · rw [if_neg h2, if_neg h2]
        by_cases h3 : ('1' ≤ c0 ∧ c0 ≤ '9') ∧ c1 = ':'
        · rw [if_pos h3, if_pos h3]
          cases hm : matchMinutes (c2 :: rest) with
          | some r =>
            rw [← minutes_equiv (c2 :: rest), hm]
            rfl
          | none =>
            rw [← minutes_equiv (c2 :: rest), hm]
            rfl
        · rw [if_neg h3, if_neg h3]
          rfl

/-- C5 is refuted: the source regex accepts one-digit seconds, seconds not
preceded by a colon, a colon with no seconds, and a lone trailing newline,
all of which the claimed grammar rejects. -/
theorem standard_grammar_cex :
    standardGrammarClaimed ("1:30:5 PM".data) = false ∧
    standard_to_military_time "1:30:5 PM" = .ok "13:30:05" ∧
    standardGrammarClaimed ("11:5900 AM\n".data) = false ∧
    standard_to_military_time "11:5900 AM\n" = .ok "11:59:00" ∧
    standard_to_military_time "1:30: PM" = .ok "13:30:00" :=
  ⟨rfl, rfl, rfl, rfl, rfl⟩

/-- C5 (amended): `standard_to_military_time` accepts exactly the anchored
grammar in which, after the 1-12 hour (optional leading zero), colon and
two-digit minute, the seconds colon and a one- or two-digit seconds field
are independently optional (two digits only when the first is 0-5), the
single space before the case-insensitive `AM`/`PM` is optional, and a lone
trailing newline is tolerated; every other input fails with the source's
`TimeFormatError`. -/
theorem standard_grammar_characterisation :
    (∀ st : String, standardGrammarSpec st.data = true →
      ∃ out, standard_to_military_time st = .ok out) ∧
    (∀ st : String, standardGrammarSpec st.data = false →
      standard_to_military_time st =
        .error (.timeFormatError "Invalid standard time format. Use HH:MM:SS AM/PM.")) := by
  constructor
  · intro st hg
    rw [← matchStd_equiv st.data] at hg
    unfold standard_to_military_time
    cases hm : matchStd st.data with
    | none =>
      rw [hm] at hg
      simp at hg
    | some r =>
      obtain ⟨h, m, so, pm⟩ := r
      exact ⟨_, rfl⟩
  · intro st hg
    rw [← matchStd_equiv st.data] at hg
    unfold standard_to_military_time
    cases hm : matchStd st.data with
    | none => rfl
    | some r =>
      rw [hm] at hg
      simp at hg

theorem standard_grammar_characterisation_witness :
    standard_to_military_time "13:00:00 AM" =
      .error (.timeFormatError "Invalid standard time format. Use HH:MM:SS AM/PM.") :=
  standard_grammar_characterisation.2 "13:00:00 AM" rfl

theorem parse_time_characterisation_witness :
    parse_time "abc" =
      .error (.timeFormatError "Invalid time format. Please use HH:MM or HH:MM:SS.") ∧
    parse_time "24:00" = .error (.timeFormatError "Time values out of valid range.") ∧
    parse_time "12:60" = .error (.timeFormatError "Time values out of valid range.") :=
  ⟨parse_time_characterisation.1 "abc" (by decide) (by decide),
    (parse_time_characterisation.2.2.2.1 "24:00" "24".data "00".data 24 0
      rfl rfl rfl).2 (by omega),
    (parse_time_characterisation.2.2.2.1 "12:60" "12".data "60".data 12 60
      rfl rfl rfl).2 (by omega)⟩

end MilTime
